import Mathlib

set_option maxHeartbeats 1000000

namespace Braces

/-- Palette entry: a display name together with its hex color string.
Embeds one element of the `COLORS` table of `BracesColorPicker.jsx` (lines 7-55). -/
structure ColorEntry where
  name : String
  hex : String
  deriving DecidableEq, Repr

/-- The fixed palette of 28 colors (`COLORS`, lines 7-55 of the source). -/
def COLORS : List ColorEntry := [
  ⟨"Lime", "#32CD32"⟩,
  ⟨"Shamrock", "#009E60"⟩,
  ⟨"Green", "#008000"⟩,
  ⟨"Jade", "#00A86B"⟩,
  ⟨"Teal", "#008080"⟩,
  ⟨"Light Blue", "#87CEEB"⟩,
  ⟨"Blue", "#0000FF"⟩,
  ⟨"Navy", "#000080"⟩,
  ⟨"Purple", "#800080"⟩,
  ⟨"Lilac", "#C8A2C8"⟩,
  ⟨"Burgundy", "#800020"⟩,
  ⟨"Red", "#FF0000"⟩,
  ⟨"Fire Red", "#DC143C"⟩,
  ⟨"Rose", "#FF66CC"⟩,
  ⟨"Pink", "#FFC0CB"⟩,
  ⟨"Bubblegum", "#FF69B4"⟩,
  ⟨"Coral", "#FF7F50"⟩,
  ⟨"Dark Orange", "#FF8C00"⟩,
  ⟨"Orange", "#FFA500"⟩,
  ⟨"Yellow", "#FFFF00"⟩,
  ⟨"Black", "#000000"⟩,
  ⟨"Grey", "#808080"⟩,
  ⟨"Bronze", "#CD7F32"⟩,
  ⟨"Gold Rush", "#D4AF37"⟩,
  ⟨"Tooth Color", "#F5F5DC"⟩,
  ⟨"Pearl", "#F8F6F0"⟩,
  ⟨"White", "#FFFFFF"⟩,
  ⟨"Silver", "#C0C0C0"⟩]

/-- Left-pad the decimal representation of `n` with zeros to width 4.
Embeds the JavaScript `String(i + 1).padStart(4, '0')` of source line 59-60. -/
def pad4 (n : Nat) : String :=
  let s := toString n
  String.mk (List.replicate (4 - s.length) '0') ++ s

/-- The registry of the 32 customizable mesh names
(`BRACES_MESHES`, lines 58-61 of the source: two runs of 16 generated names). -/
def BRACES_MESHES : List String :=
  ((List.range 16).map (fun i => "BezierCircle005_Material005_" ++ pad4 (i + 1))) ++
  ((List.range 16).map (fun i => "BezierCircle006_Material005_" ++ pad4 (i + 1)))

/-- The two color-application modes, the string values `'all'` and `'single'`
of the source's `colorMode` state (line 160). -/
inductive Mode where
  | all : Mode
  | single : Mode
  deriving DecidableEq, Repr

/-- The combined state of the color-assignment store: the `meshColors` mapping
(line 66), the pending `selectedColor` (line 159) and the `colorMode` (line 160).
The mapping is a JavaScript object keyed by mesh name; absence of a key is `none`. -/
structure State where
  meshColors : String → Option String
  selectedColor : String
  colorMode : Mode

/-- The initial store state, from the `useState` initializers:
`meshColors = {}` (line 66), `selectedColor = '#0000FF'` (line 159),
`colorMode = 'all'` (line 160). -/
def initState : State :=
  { meshColors := fun _ => none
    selectedColor := "#0000FF"
    colorMode := Mode.all }

/-- The fixed default color `'#0000FF'` of source line 127. -/
def defaultColor : String := "#0000FF"

/-- Color looked up for a part when re-materializing: `meshColors[child.name] || '#0000FF'`
(line 127). JavaScript `||` falls back to the default when the entry is absent or is
the empty string (the only falsy string). -/
def colorFor (s : State) (id : String) : String :=
  match s.meshColors id with
  | none => defaultColor
  | some c => if c = "" then defaultColor else c

/-- The broadcast effect of lines 82-90: when the mode is `'all'` and the selected
color is truthy (a non-empty string), replace the whole mapping by a fresh object
sending every registry mesh name to the selected color; otherwise do nothing. -/
def broadcast (s : State) : State :=
  if s.colorMode = Mode.all ∧ s.selectedColor ≠ "" then
    { s with meshColors := fun id => if id ∈ BRACES_MESHES then some s.selectedColor else none }
  else s

/-- Select a pending color (`setSelectedColor`, invoked at line 282 with a palette hex).
If the value is unchanged the dependency array `[selectedColor, colorMode]` of the
broadcast effect is unchanged and the effect does not re-run; otherwise the state
updates and the broadcast effect runs against the new state. -/
def setSelectedColor (c : String) (s : State) : State :=
  if s.selectedColor = c then s else broadcast { s with selectedColor := c }

/-- Switch the mode (`setColorMode`, invoked at lines 184 and 193). If the value is
unchanged the broadcast effect's dependencies are unchanged and it does not re-run;
otherwise the broadcast effect runs against the new state, because `colorMode` is in
its dependency array (line 90). -/
def setColorMode (m : Mode) (s : State) : State :=
  if s.colorMode = m then s else broadcast { s with colorMode := m }

/-- Embeds `handleMeshClick` (lines 72-79): when mode is `'single'` and the selected
color is truthy, insert or overwrite the entry for `meshName` with the selected color. -/
def handleMeshClick (meshName : String) (s : State) : State :=
  if s.colorMode = Mode.single ∧ s.selectedColor ≠ "" then
    { s with meshColors := fun id => if id = meshName then some s.selectedColor else s.meshColors id }
  else s

/-- Application of a resolved pick, the store-mutating tail of `handleCanvasClick`:
the early return when mode is not `'single'` (line 94), the registry membership
check (line 109) and the call to `handleMeshClick` (line 110). -/
def applyPick (name : String) (s : State) : State :=
  if s.colorMode = Mode.single then
    if name ∈ BRACES_MESHES then handleMeshClick name s else s
  else s

/-- The store state after the component mounts: the broadcast effect (lines 82-90)
runs once against the initial state. -/
def mountState : State := broadcast initState

/-- The user-facing operations of the store: selecting one of the 28 palette colors
(line 282 passes `color.hex`), toggling the mode (lines 184/193), and a canvas click
whose ray resolution produced an object with the given name (lines 107-112). -/
inductive Op where
  | selectColor : Fin COLORS.length → Op
  | setMode : Mode → Op
  | click : String → Op

/-- Interpret one operation on the store. -/
def step (op : Op) (s : State) : State :=
  match op with
  | Op.selectColor i => setSelectedColor (COLORS.get i).hex s
  | Op.setMode m => setColorMode m s
  | Op.click name => applyPick name s

/-- Run a sequence of operations, first to last. -/
def run (s : State) : List Op → State
  | [] => s
  | op :: rest => run (step op s) rest

/-- One ray intersection record: its distance from the camera and the name of the
intersected object (the fields of a three.js intersection used by lines 105-109). -/
structure Hit where
  distance : ℚ
  name : String
  deriving DecidableEq, Repr

/-- The three.js `Raycaster.intersectObjects` post-processing: the collected hits are
sorted by ascending distance from the camera (nearest first), as the source relies on
at line 105-108. -/
def intersectObjects (hits : List Hit) : List Hit :=
  hits.mergeSort (fun a b => decide (a.distance ≤ b.distance))

/-- Horizontal normalized-device coordinate: `((clientX - rect.left) / rect.width) * 2 - 1`
(line 98), applied to the viewport-local offset `px = clientX - rect.left`. -/
def ndcX (px w : ℚ) : ℚ := px / w * 2 - 1

/-- Vertical normalized-device coordinate: `-((clientY - rect.top) / rect.height) * 2 + 1`
(line 99), applied to the viewport-local offset `py = clientY - rect.top`. -/
def ndcY (py h : ℚ) : ℚ := -(py / h * 2) + 1

/-- The fixed inputs of one pick resolution: the canvas bounding rectangle
(line 97) and the geometric ray cast, abstracted as the function taking the
normalized device coordinates of the pointer to the list of ray intersections with
the scene's objects, collected recursively in traversal order (lines 102-105,
`setFromCamera` plus the recursive walk of `intersectObjects`), before sorting. -/
structure PickEnv where
  rectLeft : ℚ
  rectTop : ℚ
  rectWidth : ℚ
  rectHeight : ℚ
  castRay : ℚ × ℚ → List Hit

/-- The unsorted intersection list for a click at client coordinates `(x, y)`:
the pointer is projected to normalized device coordinates and the ray is cast. -/
def castHits (env : PickEnv) (x y : ℚ) : List Hit :=
  env.castRay (ndcX (x - env.rectLeft) env.rectWidth, ndcY (y - env.rectTop) env.rectHeight)

/-- Pick resolution, lines 96-112 of `handleCanvasClick`: compute the normalized
device coordinates, cast the ray, sort the intersections, and if any exist take
strictly the first (nearest) one; its name is returned exactly when it is a
registry mesh name, otherwise the click resolves to nothing. -/
def resolve (env : PickEnv) (x y : ℚ) : Option String :=
  match intersectObjects (castHits env x y) with
  | [] => none
  | h :: _ => if h.name ∈ BRACES_MESHES then some h.name else none

/-- The mutable raycaster ref of line 68, reduced to the state that survives between
calls: the normalized device coordinates it was last set from. -/
structure Raycaster where
  ndc : ℚ × ℚ

/-- Embeds `raycaster.setFromCamera(mouse, camera)` (line 102): the raycaster's
previous contents are discarded and fully rebuilt from the camera and the given
coordinates. -/
def Raycaster.setFromCamera (_ : Raycaster) (m : ℚ × ℚ) : Raycaster := ⟨m⟩

/-- One invocation of the resolution part of `handleCanvasClick` with the mutable
refs threaded explicitly: `mouseRef` and `rc` are the prior contents of the `mouse`
and `raycaster` refs (lines 68-69); both are overwritten (lines 98-99, 102) before
being read. Returns the resolution result together with the refs' new contents. -/
def resolveStep (_mouseRef : ℚ × ℚ) (rc : Raycaster) (env : PickEnv) (x y : ℚ) :
    Option String × ((ℚ × ℚ) × Raycaster) :=
  let m := (ndcX (x - env.rectLeft) env.rectWidth, ndcY (y - env.rectTop) env.rectHeight)
  let rc2 := rc.setFromCamera m
  let res :=
    match intersectObjects (env.castRay rc2.ndc) with
    | [] => none
    | h :: _ => if h.name ∈ BRACES_MESHES then some h.name else none
  (res, m, rc2)

/-- Sorting by ascending distance puts a strictly nearest hit at the head. -/
theorem intersectObjects_head_of_nearest (hits : List Hit) (h : Hit)
    (hmem : h ∈ hits)
    (hmin : ∀ h2 ∈ hits, h2 ≠ h → h.distance < h2.distance) :
    ∃ rest, intersectObjects hits = h :: rest := by
  have hperm := List.mergeSort_perm hits (fun a b => decide (a.distance ≤ b.distance))
  have hsorted : (hits.mergeSort (fun a b => decide (a.distance ≤ b.distance))).Pairwise
      (fun a b => decide (a.distance ≤ b.distance) = true) := by
    exact List.sorted_mergeSort
      (fun a b c hab hbc => by
        simp only [decide_eq_true_eq] at *
        exact le_trans hab hbc)
      (fun a b => by
        simp only [Bool.or_eq_true, decide_eq_true_eq]
        exact le_total a.distance b.distance)
      hits
  unfold intersectObjects
  cases hl : hits.mergeSort (fun a b => decide (a.distance ≤ b.distance)) with
  | nil =>
      rw [hl] at hperm
      exact absurd (hperm.symm.mem_iff.mp hmem) (List.not_mem_nil h)
  | cons a t =>
      by_cases hah : a = h
      · exact ⟨t, by rw [hah]⟩
      · exfalso
        have hhl : h ∈ a :: t := by
          rw [← hl]
          exact hperm.mem_iff.mpr hmem
        have hht : h ∈ t := by
          rcases List.mem_cons.mp hhl with hcase | hcase
          · exact absurd hcase.symm hah
          · exact hcase
        have hal : a ∈ hits := by
          refine hperm.subset ?_
          rw [hl]
          exact List.mem_cons_self a t
        rw [hl] at hsorted
        have hlea : a.distance ≤ h.distance := by
          have := (List.pairwise_cons.mp hsorted).1 h hht
          simpa using this
        exact absurd hlea (not_le.mpr (hmin a hal hah))

/-- Invariant of every post-mount reachable store state: the pending color is a
non-empty string, and in `all` mode the mapping is exactly the uniform broadcast
of the pending color over the registry. -/
def storeInv (s : State) : Prop :=
  s.selectedColor ≠ "" ∧
  (s.colorMode = Mode.all →
    s.meshColors = fun id => if id ∈ BRACES_MESHES then some s.selectedColor else none)

/-- Every palette hex string is non-empty. -/
theorem palette_hex_ne_empty : ∀ c ∈ COLORS.map ColorEntry.hex, c ≠ "" := by decide

/-- The mount-time broadcast establishes the store invariant. -/
theorem storeInv_mount : storeInv mountState := by
  constructor
  · decide
  · intro _
    rfl

/-- Each user operation preserves the store invariant. -/
theorem storeInv_step (op : Op) (s : State) (hs : storeInv s) : storeInv (step op s) := by
  obtain ⟨hne, hall⟩ := hs
  cases op with
  | selectColor i =>
      have hcne : (COLORS.get i).hex ≠ "" := by
        refine palette_hex_ne_empty _ ?_
        exact List.mem_map_of_mem ColorEntry.hex (COLORS.get_mem i.1 i.2)
      show storeInv (setSelectedColor (COLORS.get i).hex s)
      unfold setSelectedColor
      by_cases heq : s.selectedColor = (COLORS.get i).hex
      · rw [if_pos heq]
        exact ⟨hne, hall⟩
      · rw [if_neg heq]
        unfold broadcast
        by_cases hm : s.colorMode = Mode.all
        · rw [if_pos ⟨hm, hcne⟩]
          exact ⟨hcne, fun _ => rfl⟩
        · rw [if_neg (fun hc => hm hc.1)]
          exact ⟨hcne, fun hc => absurd hc hm⟩
  | setMode m =>
      show storeInv (setColorMode m s)
      unfold setColorMode
      by_cases heq : s.colorMode = m
      · rw [if_pos heq]
        exact ⟨hne, hall⟩
      · rw [if_neg heq]
        unfold broadcast
        cases m with
        | all =>
            rw [if_pos ⟨rfl, hne⟩]
            exact ⟨hne, fun _ => rfl⟩
        | single =>
            rw [if_neg (fun hc => Mode.noConfusion hc.1)]
            exact ⟨hne, fun hc => Mode.noConfusion hc⟩
  | click name =>
      show storeInv (applyPick name s)
      unfold applyPick
      by_cases hm : s.colorMode = Mode.single
      · rw [if_pos hm]
        by_cases hb : name ∈ BRACES_MESHES
        · rw [if_pos hb]
          unfold handleMeshClick
          by_cases hg : s.colorMode = Mode.single ∧ s.selectedColor ≠ ""
          · rw [if_pos hg]
            exact ⟨hne, fun hc => Mode.noConfusion (hm.symm.trans hc)⟩
          · rw [if_neg hg]
            exact ⟨hne, hall⟩
        · rw [if_neg hb]
          exact ⟨hne, hall⟩
      · rw [if_neg hm]
        exact ⟨hne, hall⟩

/-- Running any operation sequence preserves the store invariant. -/
theorem storeInv_run (ops : List Op) (s : State) (hs : storeInv s) : storeInv (run s ops) := by
  induction ops generalizing s with
  | nil => exact hs
  | cons op rest ih => exact ih _ (storeInv_step op s hs)

/-- Key-set invariant: every key present in the mapping is a registry mesh name. -/
def keysInv (s : State) : Prop :=
  ∀ id, (s.meshColors id).isSome → id ∈ BRACES_MESHES

/-- The initial empty mapping satisfies the key-set invariant. -/
theorem keysInv_init : keysInv initState := by
  intro id hid
  simp [initState] at hid

/-- The mount-time broadcast preserves the key-set invariant. -/
theorem keysInv_broadcast (s : State) (hs : keysInv s) : keysInv (broadcast s) := by
  intro id hid
  unfold broadcast at hid
  by_cases hc : s.colorMode = Mode.all ∧ s.selectedColor ≠ ""
  · rw [if_pos hc] at hid
    by_cases hb : id ∈ BRACES_MESHES
    · exact hb
    · simp [hb] at hid
  · rw [if_neg hc] at hid
    exact hs id hid

/-- Each user operation preserves the key-set invariant. -/
theorem keysInv_step (op : Op) (s : State) (hs : keysInv s) : keysInv (step op s) := by
  cases op with
  | selectColor i =>
      simp only [step, setSelectedColor]
      by_cases heq : s.selectedColor = (COLORS.get i).hex
      · simpa [heq] using hs
      · rw [if_neg heq]
        exact keysInv_broadcast _ (fun id hid => hs id hid)
  | setMode m =>
      simp only [step, setColorMode]
      by_cases heq : s.colorMode = m
      · simpa [heq] using hs
      · rw [if_neg heq]
        exact keysInv_broadcast _ (fun id hid => hs id hid)
  | click name =>
      simp only [step, applyPick]
      by_cases hm : s.colorMode = Mode.single
      · rw [if_pos hm]
        by_cases hb : name ∈ BRACES_MESHES
        · rw [if_pos hb]
          intro id hid
          unfold handleMeshClick at hid
          by_cases hg : s.colorMode = Mode.single ∧ s.selectedColor ≠ ""
          · rw [if_pos hg] at hid
            simp only at hid
            by_cases hin : id = name
            · rw [hin]; exact hb
            · rw [if_neg hin] at hid
              exact hs id hid
          · rw [if_neg hg] at hid
            exact hs id hid
        · rw [if_neg hb]
          exact hs
      · rw [if_neg hm]
        exact hs

/-- Running any operation sequence preserves the key-set invariant. -/
theorem keysInv_run (ops : List Op) (s : State) (hs : keysInv s) : keysInv (run s ops) := by
  induction ops generalizing s with
  | nil => exact hs
  | cons op rest ih => exact ih _ (keysInv_step op s hs)

/-- The broadcast effect never touches the pending color. -/
theorem broadcast_selectedColor (s : State) : (broadcast s).selectedColor = s.selectedColor := by
  unfold broadcast
  split
  · rfl
  · rfl

/-- Switching to `all` mode: the resulting mode is `all` and the pending color is kept. -/
theorem setColorMode_all_spec (s : State) (hinv : storeInv s) :
    (setColorMode Mode.all s).colorMode = Mode.all ∧
    (setColorMode Mode.all s).selectedColor = s.selectedColor := by
  unfold setColorMode
  by_cases heq : s.colorMode = Mode.all
  · rw [if_pos heq]
    exact ⟨heq, rfl⟩
  · rw [if_neg heq]
    unfold broadcast
    rw [if_pos ⟨rfl, hinv.1⟩]
    exact ⟨rfl, rfl⟩

/-- Switching to `single` mode never touches the mapping or the pending color. -/
theorem setColorMode_single_spec (s : State) :
    (setColorMode Mode.single s).colorMode = Mode.single ∧
    (setColorMode Mode.single s).meshColors = s.meshColors ∧
    (setColorMode Mode.single s).selectedColor = s.selectedColor := by
  unfold setColorMode
  by_cases heq : s.colorMode = Mode.single
  · rw [if_pos heq]
    exact ⟨heq, rfl, rfl⟩
  · rw [if_neg heq]
    unfold broadcast
    rw [if_neg (fun hc => Mode.noConfusion hc.1)]
    exact ⟨rfl, rfl, rfl⟩

/-- Selecting a color while in `single` mode stages it without touching the mapping. -/
theorem setSelectedColor_single_spec (s : State) (c : String) (hm : s.colorMode = Mode.single) :
    (setSelectedColor c s).colorMode = Mode.single ∧
    (setSelectedColor c s).meshColors = s.meshColors ∧
    (setSelectedColor c s).selectedColor = c := by
  unfold setSelectedColor
  by_cases heq : s.selectedColor = c
  · rw [if_pos heq]
    exact ⟨hm, rfl, heq⟩
  · rw [if_neg heq]
    unfold broadcast
    rw [if_neg (fun hc => Mode.noConfusion (hm.symm.trans hc.1))]
    exact ⟨hm, rfl, rfl⟩

/-- A pick applied in `single` mode with a truthy pending color and a registry name
inserts exactly that one entry. -/
theorem applyPick_single_update (s : State) (p : String) (hm : s.colorMode = Mode.single)
    (hp : p ∈ BRACES_MESHES) (hcne : s.selectedColor ≠ "") :
    (applyPick p s).colorMode = Mode.single ∧
    (applyPick p s).selectedColor = s.selectedColor ∧
    (applyPick p s).meshColors =
      fun id => if id = p then some s.selectedColor else s.meshColors id := by
  unfold applyPick handleMeshClick
  rw [if_pos hm, if_pos hp, if_pos ⟨hm, hcne⟩]
  exact ⟨hm, rfl, rfl⟩

/-- Selecting a non-empty color while in `all` mode rewrites the mapping to the
uniform broadcast of that color, whether or not the selection actually changed. -/
theorem meshColors_after_select (s : State) (c : String) (hcne : c ≠ "")
    (hm : s.colorMode = Mode.all) (hinv : storeInv s) :
    (setSelectedColor c s).meshColors =
      fun id => if id ∈ BRACES_MESHES then some c else none := by
  obtain ⟨_, hall⟩ := hinv
  unfold setSelectedColor
  by_cases heq : s.selectedColor = c
  · rw [if_pos heq, hall hm, heq]
  · rw [if_neg heq]
    unfold broadcast
    rw [if_pos ⟨hm, hcne⟩]

/-- The pending color stays unchanged after the select, whether the broadcast ran
or the update bailed out. -/
theorem selectedColor_after_select (s : State) (c : String) :
    (setSelectedColor c s).selectedColor = if s.selectedColor = c then s.selectedColor else c := by
  unfold setSelectedColor
  by_cases heq : s.selectedColor = c
  · rw [if_pos heq, if_pos heq]
  · rw [if_neg heq, if_neg heq, broadcast_selectedColor]

/-- Each operation keeps the pending color non-empty once it is. -/
theorem selectedColor_step_ne (op : Op) (s : State) (h : s.selectedColor ≠ "") :
    (step op s).selectedColor ≠ "" := by
  cases op with
  | selectColor i =>
      have hcne : (COLORS.get i).hex ≠ "" := by
        refine palette_hex_ne_empty _ ?_
        exact List.mem_map_of_mem ColorEntry.hex (COLORS.get_mem i.1 i.2)
      show (setSelectedColor (COLORS.get i).hex s).selectedColor ≠ ""
      rw [selectedColor_after_select]
      by_cases heq : s.selectedColor = (COLORS.get i).hex
      · rw [if_pos heq]
        exact h
      · rw [if_neg heq]
        exact hcne
  | setMode m =>
      show (setColorMode m s).selectedColor ≠ ""
      unfold setColorMode
      by_cases heq : s.colorMode = m
      · rw [if_pos heq]
        exact h
      · rw [if_neg heq, broadcast_selectedColor]
        exact h
  | click name =>
      show (applyPick name s).selectedColor ≠ ""
      unfold applyPick handleMeshClick
      by_cases hm : s.colorMode = Mode.single
      · rw [if_pos hm]
        by_cases hb : name ∈ BRACES_MESHES
        · rw [if_pos hb]
          by_cases hg : s.colorMode = Mode.single ∧ s.selectedColor ≠ ""
          · rw [if_pos hg]
            exact h
          · rw [if_neg hg]
            exact h
        · rw [if_neg hb]
          exact h
      · rw [if_neg hm]
        exact h

/-- The pending color of any state reached from a state with a non-empty pending
color is non-empty. -/
theorem selectedColor_run_ne (ops : List Op) (s : State) (h : s.selectedColor ≠ "") :
    (run s ops).selectedColor ≠ "" := by
  induction ops generalizing s with
  | nil => exact h
  | cons op rest ih => exact ih _ (selectedColor_step_ne op s h)

/-- Claim C1: for every palette color `c` and every reachable store state, after
`setMode(All)` then `setPendingColor(c)` the mapping is exactly the map sending
every registry part to `c`, and `colorFor` yields `c` on every known part. -/
theorem claim1_all_then_select_broadcasts_exactly (ops : List Op) (c : String)
    (hc : c ∈ COLORS.map ColorEntry.hex) :
    (setSelectedColor c (setColorMode Mode.all (run mountState ops))).meshColors =
      (fun id => if id ∈ BRACES_MESHES then some c else none) ∧
    ∀ p ∈ BRACES_MESHES,
      colorFor (setSelectedColor c (setColorMode Mode.all (run mountState ops))) p = c := by
  have hinv : storeInv (run mountState ops) := storeInv_run ops mountState storeInv_mount
  have hinv1 : storeInv (setColorMode Mode.all (run mountState ops)) :=
    storeInv_step (Op.setMode Mode.all) _ hinv
  have hcne : c ≠ "" := palette_hex_ne_empty c hc
  obtain ⟨hm1, _⟩ := setColorMode_all_spec _ hinv
  have hmap := meshColors_after_select _ c hcne hm1 hinv1
  refine ⟨hmap, fun p hp => ?_⟩
  unfold colorFor
  rw [hmap]
  simp only [hp, if_true, if_pos]
  rw [if_neg hcne]

/-- Witness for claim C1 at the concrete color Red and a concrete registry part. -/
theorem claim1_witness :
    ("#FF0000" ∈ COLORS.map ColorEntry.hex) ∧
    (setSelectedColor "#FF0000" (setColorMode Mode.all (run mountState []))).meshColors
        "BezierCircle005_Material005_0003" = some "#FF0000" ∧
    colorFor (setSelectedColor "#FF0000" (setColorMode Mode.all (run mountState [])))
        "BezierCircle005_Material005_0003" = "#FF0000" := by
  refine ⟨by decide, ?_, ?_⟩
  · have h := (claim1_all_then_select_broadcasts_exactly [] "#FF0000" (by decide)).1
    have h2 := congrFun h "BezierCircle005_Material005_0003"
    rw [h2]
    decide
  · exact (claim1_all_then_select_broadcasts_exactly [] "#FF0000" (by decide)).2
      "BezierCircle005_Material005_0003" (by decide)

/-- Claim C2 as stated is false: switching the mode from `single` to `all` with a
non-empty pending color re-runs the broadcast effect (its dependency array contains
`colorMode`), rewriting the mapping. Concretely: from the mounted state, switch to
`single`, select Red (staged only), then switch back to `all`: the first registry
part jumps from the mount-time blue to Red. -/
theorem claim2_counterexample :
    (setColorMode Mode.all
        (run mountState [Op.setMode Mode.single, Op.selectColor ⟨11, by decide⟩])).meshColors
        "BezierCircle005_Material005_0001" ≠
      (run mountState [Op.setMode Mode.single, Op.selectColor ⟨11, by decide⟩]).meshColors
        "BezierCircle005_Material005_0001" := by
  decide

/-- Claim C2 amended: `setMode(m)` leaves the mapping unchanged unless it actually
changes the mode to `All` while the pending color is non-empty, in which case the
broadcast effect immediately rewrites the mapping to send every registry part to
the pending color. -/
theorem claim2_amended_setMode_effect (s : State) (m : Mode) :
    (setColorMode m s).meshColors =
      if s.colorMode ≠ m ∧ m = Mode.all ∧ s.selectedColor ≠ "" then
        (fun id => if id ∈ BRACES_MESHES then some s.selectedColor else none)
      else s.meshColors := by
  unfold setColorMode
  by_cases heq : s.colorMode = m
  · rw [if_pos heq, if_neg (fun hc => hc.1 heq)]
  · rw [if_neg heq]
    unfold broadcast
    by_cases hg : m = Mode.all ∧ s.selectedColor ≠ ""
    · rw [if_pos ⟨hg.1, hg.2⟩, if_pos ⟨heq, hg⟩]
    · rw [if_neg (fun hc => hg ⟨hc.1, hc.2⟩), if_neg (fun hc => hg hc.2)]

/-- Claim C4: two successive single-mode selections and picks on distinct registry
parts leave both parts with their respective colors. -/
theorem claim4_single_picks_independent (s : State) (p1 p2 c1 c2 : String)
    (hp1 : p1 ∈ BRACES_MESHES) (hp2 : p2 ∈ BRACES_MESHES) (hpne : p1 ≠ p2)
    (hc1 : c1 ∈ COLORS.map ColorEntry.hex) (hc2 : c2 ∈ COLORS.map ColorEntry.hex) :
    colorFor (applyPick p2 (setSelectedColor c2 (applyPick p1
      (setSelectedColor c1 (setColorMode Mode.single s))))) p1 = c1 ∧
    colorFor (applyPick p2 (setSelectedColor c2 (applyPick p1
      (setSelectedColor c1 (setColorMode Mode.single s))))) p2 = c2 := by
  have hc1ne : c1 ≠ "" := palette_hex_ne_empty c1 hc1
  have hc2ne : c2 ≠ "" := palette_hex_ne_empty c2 hc2
  obtain ⟨hm0, _, _⟩ := setColorMode_single_spec s
  obtain ⟨hm1, _, hsel1⟩ := setSelectedColor_single_spec _ c1 hm0
  obtain ⟨hm2, hsel2, hmap2⟩ :=
    applyPick_single_update _ p1 hm1 hp1 (fun hq => hc1ne (hsel1.symm.trans hq))
  obtain ⟨hm3, hmap3, hsel3⟩ := setSelectedColor_single_spec _ c2 hm2
  obtain ⟨_, _, hmap4⟩ :=
    applyPick_single_update _ p2 hm3 hp2 (fun hq => hc2ne (hsel3.symm.trans hq))
  constructor
  · simp [colorFor, hmap4, hmap3, hmap2, hsel1, hpne, hc1ne]
  · simp [colorFor, hmap4, hsel3, hc2ne]

/-- Witness for claim C4 on two concrete distinct parts and concrete palette colors. -/
theorem claim4_witness :
    colorFor (applyPick "BezierCircle006_Material005_0002" (setSelectedColor "#FFA500"
      (applyPick "BezierCircle005_Material005_0001" (setSelectedColor "#FF0000"
        (setColorMode Mode.single mountState))))) "BezierCircle005_Material005_0001"
      = "#FF0000" ∧
    colorFor (applyPick "BezierCircle006_Material005_0002" (setSelectedColor "#FFA500"
      (applyPick "BezierCircle005_Material005_0001" (setSelectedColor "#FF0000"
        (setColorMode Mode.single mountState))))) "BezierCircle006_Material005_0002"
      = "#FFA500" :=
  claim4_single_picks_independent mountState
    "BezierCircle005_Material005_0001" "BezierCircle006_Material005_0002"
    "#FF0000" "#FFA500"
    (by decide) (by decide) (by decide) (by decide) (by decide)

/-- Claim C3: `resolve` considers only the single nearest ray intersection and
returns its identifier exactly when its name is a registry mesh name; a
non-customizable nearest hit yields nothing, even with a customizable part behind. -/
theorem claim3_resolve_nearest (env : PickEnv) (x y : ℚ) (h : Hit)
    (hmem : h ∈ castHits env x y)
    (hmin : ∀ h2 ∈ castHits env x y, h2 ≠ h → h.distance < h2.distance) :
    resolve env x y = if h.name ∈ BRACES_MESHES then some h.name else none := by
  obtain ⟨rest, hr⟩ := intersectObjects_head_of_nearest _ h hmem hmin
  unfold resolve
  rw [hr]

/-- An environment whose ray hits a non-customizable tooth mesh at distance 1,
with a registry brace mesh behind it at distance 2, for the claim C3 witness. -/
def occludedEnv : PickEnv :=
  { rectLeft := 0
    rectTop := 0
    rectWidth := 2
    rectHeight := 2
    castRay := fun _ => [⟨2, "BezierCircle005_Material005_0001"⟩, ⟨1, "ToothGeometry"⟩] }

/-- Witness for claim C3: the nearest hit is non-customizable, a registry part lies
behind on the same ray, and resolution returns nothing. -/
theorem claim3_witness :
    ((⟨1, "ToothGeometry"⟩ : Hit) ∈ castHits occludedEnv 1 1) ∧
    ((⟨2, "BezierCircle005_Material005_0001"⟩ : Hit) ∈ castHits occludedEnv 1 1) ∧
    ("BezierCircle005_Material005_0001" ∈ BRACES_MESHES) ∧
    ("ToothGeometry" ∉ BRACES_MESHES) ∧
    resolve occludedEnv 1 1 = none := by
  refine ⟨by decide, by decide, by decide, by decide, ?_⟩
  have h := claim3_resolve_nearest occludedEnv 1 1 ⟨1, "ToothGeometry"⟩ (by decide) (by decide)
  rw [h, if_neg (by decide)]

/-- Claim C5: a pick applied while the mode is not `single` is a silent no-op on
the whole store, so every part keeps its color. -/
theorem claim5_applyPick_noop_outside_single (s : State) (p : String)
    (hm : s.colorMode ≠ Mode.single) :
    applyPick p s = s ∧ ∀ q, colorFor (applyPick p s) q = colorFor s q := by
  have h : applyPick p s = s := by
    unfold applyPick
    rw [if_neg hm]
  exact ⟨h, fun q => by rw [h]⟩

/-- Witness for claim C5 at the mounted state (whose mode is `all`). -/
theorem claim5_witness :
    applyPick "BezierCircle005_Material005_0001" mountState = mountState ∧
    ∀ q, colorFor (applyPick "BezierCircle005_Material005_0001" mountState) q =
      colorFor mountState q :=
  claim5_applyPick_noop_outside_single mountState "BezierCircle005_Material005_0001" (by decide)

/-- Claim C6: a pick whose identifier is not a registry mesh name is a silent no-op
in every store state, whatever the mode. -/
theorem claim6_applyPick_unknown_noop (s : State) (id : String)
    (hid : id ∉ BRACES_MESHES) :
    applyPick id s = s ∧ ∀ q, colorFor (applyPick id s) q = colorFor s q := by
  have h : applyPick id s = s := by
    unfold applyPick
    by_cases hm : s.colorMode = Mode.single
    · rw [if_pos hm, if_neg hid]
    · rw [if_neg hm]
  exact ⟨h, fun q => by rw [h]⟩

/-- Witness for claim C6: an unknown identifier picked in `single` mode (the mode in
which a pick could otherwise write) changes nothing. -/
theorem claim6_witness :
    applyPick "ToothGeometry" (run mountState [Op.setMode Mode.single]) =
      run mountState [Op.setMode Mode.single] ∧
    ∀ q, colorFor (applyPick "ToothGeometry" (run mountState [Op.setMode Mode.single])) q =
      colorFor (run mountState [Op.setMode Mode.single]) q :=
  claim6_applyPick_unknown_noop (run mountState [Op.setMode Mode.single]) "ToothGeometry"
    (by decide)

/-- Claim C7: in every store state reachable from the empty initial mapping by user
operations, every key present in the mapping is a registry mesh name. -/
theorem claim7_keys_subset_registry (ops : List Op) (id : String)
    (hid : ((run initState ops).meshColors id).isSome = true) :
    id ∈ BRACES_MESHES :=
  keysInv_run ops initState keysInv_init id hid

/-- Witness for claim C7: after switching to `single` mode and picking a registry
part, that part's entry is present and the theorem places it in the registry. -/
theorem claim7_witness :
    ((run initState [Op.setMode Mode.single,
        Op.click "BezierCircle005_Material005_0001"]).meshColors
        "BezierCircle005_Material005_0001").isSome = true ∧
    "BezierCircle005_Material005_0001" ∈ BRACES_MESHES :=
  ⟨by decide,
   claim7_keys_subset_registry
     [Op.setMode Mode.single, Op.click "BezierCircle005_Material005_0001"]
     "BezierCircle005_Material005_0001" (by decide)⟩

/-- Claim C8: the resolver's pointer projection sends viewport-local pixels
`(px, py)` on a `w`-by-`h` viewport to `(2*px/w - 1, -(2*py/h) + 1)`; each axis lies
in `[-1, 1]` inside the viewport, and the vertical axis is inverted (larger
screen-down `py` gives smaller normalized-device `y`). -/
theorem claim8_ndc_projection (px py w h : ℚ) (hw : 0 < w) (hh : 0 < h) :
    ndcX px w = 2 * px / w - 1 ∧
    ndcY py h = -(2 * py / h) + 1 ∧
    (0 ≤ px → px ≤ w → -1 ≤ ndcX px w ∧ ndcX px w ≤ 1) ∧
    (0 ≤ py → py ≤ h → -1 ≤ ndcY py h ∧ ndcY py h ≤ 1) ∧
    (∀ py1 py2 : ℚ, py1 < py2 → ndcY py2 h < ndcY py1 h) := by
  refine ⟨by unfold ndcX; ring, by unfold ndcY; ring, ?_, ?_, ?_⟩
  · intro h0 h1
    have q0 : 0 ≤ px / w := div_nonneg h0 hw.le
    have q1 : px / w ≤ 1 := (div_le_one hw).mpr h1
    unfold ndcX
    constructor
    · nlinarith
    · nlinarith
  · intro h0 h1
    have q0 : 0 ≤ py / h := div_nonneg h0 hh.le
    have q1 : py / h ≤ 1 := (div_le_one hh).mpr h1
    unfold ndcY
    constructor
    · nlinarith
    · nlinarith
  · intro py1 py2 hlt
    have q : py1 / h < py2 / h := by gcongr
    unfold ndcY
    nlinarith

/-- Witness for claim C8 on a concrete 2-by-2 viewport with the pointer at its
center. -/
theorem claim8_witness :
    (0:ℚ) < 2 ∧
    (ndcX 1 2 = 2 * 1 / 2 - 1 ∧
     ndcY 1 2 = -(2 * 1 / 2) + 1 ∧
     ((0:ℚ) ≤ 1 → (1:ℚ) ≤ 2 → -1 ≤ ndcX 1 2 ∧ ndcX 1 2 ≤ 1) ∧
     ((0:ℚ) ≤ 1 → (1:ℚ) ≤ 2 → -1 ≤ ndcY 1 2 ∧ ndcY 1 2 ≤ 1) ∧
     (∀ py1 py2 : ℚ, py1 < py2 → ndcY py2 2 < ndcY py1 2)) :=
  ⟨by norm_num, claim8_ndc_projection 1 1 2 2 (by norm_num) (by norm_num)⟩

/-- Claim C9: pick resolution is deterministic — its result is a pure function of
the pointer coordinates, viewport and scene, independent of the prior contents of
the mutable `mouse` and `raycaster` refs, which are fully overwritten each call. -/
theorem claim9_resolution_deterministic (env : PickEnv) (x y : ℚ)
    (m1 m2 : ℚ × ℚ) (rc1 rc2 : Raycaster) :
    (resolveStep m1 rc1 env x y).1 = resolve env x y ∧
    (resolveStep m1 rc1 env x y).1 = (resolveStep m2 rc2 env x y).1 :=
  ⟨rfl, rfl⟩

/-- Claim C10: at startup the mapping is empty, the pending color and the fixed
default are both `'#0000FF'`, so `colorFor` yields `'#0000FF'` on every known part;
the pending color stays non-empty under every operation sequence, so a registry
pick in `single` mode is never dropped by the pending-color guard. -/
theorem claim10_initial_state (ops : List Op) (p : String) (hp : p ∈ BRACES_MESHES) :
    initState.meshColors p = none ∧
    initState.selectedColor = "#0000FF" ∧
    defaultColor = "#0000FF" ∧
    colorFor initState p = "#0000FF" ∧
    (run initState ops).selectedColor ≠ "" ∧
    ((run initState ops).colorMode = Mode.single →
      (applyPick p (run initState ops)).meshColors p =
        some ((run initState ops).selectedColor)) := by
  have hne : (run initState ops).selectedColor ≠ "" :=
    selectedColor_run_ne ops initState (by decide)
  refine ⟨rfl, rfl, rfl, rfl, hne, fun hm => ?_⟩
  obtain ⟨_, _, hmap⟩ := applyPick_single_update (run initState ops) p hm hp hne
  rw [hmap]
  simp

/-- Witness for claim C10 after switching to `single` mode, at a concrete part. -/
theorem claim10_witness :
    ("BezierCircle005_Material005_0001" ∈ BRACES_MESHES) ∧
    (initState.meshColors "BezierCircle005_Material005_0001" = none ∧
     initState.selectedColor = "#0000FF" ∧
     defaultColor = "#0000FF" ∧
     colorFor initState "BezierCircle005_Material005_0001" = "#0000FF" ∧
     (run initState [Op.setMode Mode.single]).selectedColor ≠ "" ∧
     ((run initState [Op.setMode Mode.single]).colorMode = Mode.single →
       (applyPick "BezierCircle005_Material005_0001"
           (run initState [Op.setMode Mode.single])).meshColors
           "BezierCircle005_Material005_0001" =
         some ((run initState [Op.setMode Mode.single]).selectedColor))) :=
  ⟨by decide,
   claim10_initial_state [Op.setMode Mode.single] "BezierCircle005_Material005_0001"
     (by decide)⟩

end Braces
